import Mathlib

/-!
Shallow embedding of the journal ingest pipeline of the Mumble repository
(module `journal/utils.py`): the keyword-based heuristic analyzer, the
OpenAI-backed analysis call with its fallback and cache (`_analyse`), the
text polishing step (`polish_text`) and the transcription step
(`transcribe_audio`).

Modelling choices:
* Python strings are Lean `String`s; `str.lower()` is `pyLower`,
  `str.strip()` is `pyStrip`, and the substring test `kw in lower` is
  `strContains`.
* Python floats are modelled as rationals (`ℚ`).  True division `a / b`
  is `mkRat a b` (equal to `(a : ℚ) / (b : ℚ)` whenever `b ≠ 0`, see
  `rowScore_eq_div`); `round(x, 2)` is `round2`, rounding to the nearest
  hundredth (`round2_eq` gives the textbook form `⌊100q + 1/2⌋ / 100`).
  Every score the heuristic can produce is `k/3`, `k/4` or `k/6`; none of
  these lies at a tie point of the hundredth grid nor near a binary-float
  boundary, so on all reachable values `round2` agrees exactly with
  the Python `round`.
* The external OpenAI service and the JSON decoder are not part of the
  repository; their behaviour is a parameter (`RemoteEnv`, `PolishEnv`),
  and a Python exception is an `Except.error`.
-/

/-- `charsStartWith sub s` mirrors the initial-segment test used to decide the Python
substring operator: `sub` is an initial segment of `s`. -/
def charsStartWith : List Char → List Char → Bool
  | [], _ => true
  | _ :: _, [] => false
  | a :: sub, b :: s => a == b && charsStartWith sub s

/-- `charsContain sub s` decides whether `sub` occurs contiguously inside
`s` (Python `sub in s` on strings). -/
def charsContain : List Char → List Char → Bool
  | sub, [] => charsStartWith sub []
  | sub, b :: s => charsStartWith sub (b :: s) || charsContain sub s

/-- Python `sub in s` for strings: substring containment. -/
def strContains (s sub : String) : Bool :=
  charsContain sub.data s.data

/-- Python `str.lower()` (the repository only feeds it ASCII text; on
ASCII this is exactly `Char.toLower` on every character). -/
def pyLower (s : String) : String :=
  ⟨s.data.map Char.toLower⟩

/-- Python `str.strip()`: drop leading and trailing whitespace. -/
def pyStrip (s : String) : String :=
  ⟨((s.data.dropWhile Char.isWhitespace).reverse.dropWhile
      Char.isWhitespace).reverse⟩

/-- Python `round(q, 2)` on the rational model of floats: the nearest
hundredth, computed on the normalized representation.  `round2_eq` below
rewrites it to `⌊q * 100 + 1/2⌋ / 100`; no score reachable in this
development is a tie of the hundredth grid, so the half-up convention
coincides with the Python banker rounding here. -/
def round2 (q : ℚ) : ℚ :=
  mkRat ((200 * q.num + (q.den : ℤ)).fdiv (2 * (q.den : ℤ))) 100

/-- A `{name, confidence}` mood dict from `journal/utils.py`. -/
structure MoodEntry where
  name : String
  confidence : ℚ
deriving DecidableEq, Repr

/-- A `{name, relevance}` topic dict from `journal/utils.py`. -/
structure TopicEntry where
  name : String
  relevance : ℚ
deriving DecidableEq, Repr

/-- `_FALLBACK_MOODS` of `journal/utils.py`: the mood keyword table, in
dict insertion order. -/
def _FALLBACK_MOODS : List (String × List String) :=
  [("happy", ["happy", "joy", "glad", "excited"]),
   ("sad", ["sad", "down", "unhappy", "depressed"]),
   ("angry", ["angry", "mad", "furious"]),
   ("anxious", ["anxious", "nervous", "worried"])]

/-- `_FALLBACK_TOPICS` of `journal/utils.py`: the topic keyword table, in
dict insertion order. -/
def _FALLBACK_TOPICS : List (String × List String) :=
  [("work", ["work", "office", "project", "meeting"]),
   ("family", ["family", "mom", "dad", "sister", "brother", "kids"]),
   ("health", ["health", "exercise", "diet", "doctor"])]

/-- `sum(1 for kw in kws if kw in lower)` in `_keyword_fallback`. -/
def countMatches (kws : List String) (lower : String) : Nat :=
  (kws.filter (fun kw => strContains lower kw)).length

/-- The raw score of one table row in `_keyword_fallback`:
`sum(1 for kw in kws if kw in lower) / len(kws)` (Python true division;
both tables only hold non-empty keyword lists, so the divisor is never
zero). -/
def rowScore (kws : List String) (lower : String) : ℚ :=
  mkRat (countMatches kws lower : ℤ) kws.length

/-- The loop shared by both halves of `_keyword_fallback`: walk the table
in order and keep `(name, round(score, 2))` whenever `score` is truthy
(non-zero). -/
def fallbackScores : List (String × List String) → String → List (String × ℚ)
  | [], _ => []
  | p :: t, lower =>
    if rowScore p.2 lower = 0 then fallbackScores t lower
    else (p.1, round2 (rowScore p.2 lower)) :: fallbackScores t lower

/-- `_keyword_fallback` of `journal/utils.py`: lower-case the text
(`lower = text.lower()`, inlined here), score every mood row and every
topic row, keep the non-zero ones. -/
def _keyword_fallback (text : String) : List MoodEntry × List TopicEntry :=
  ((fallbackScores _FALLBACK_MOODS (pyLower text)).map (fun p => ⟨p.1, p.2⟩),
   (fallbackScores _FALLBACK_TOPICS (pyLower text)).map (fun p => ⟨p.1, p.2⟩))

/-- A parsed analysis result: the pair of lists `_analyse` returns. -/
abbrev AnalysisResult := List MoodEntry × List TopicEntry

/-- Behaviour of the pieces external to the repository that
`_call_openai_analysis` touches.

* `apiKeyConfigured`: `current_app.config.get("OPENAI_API_KEY")` is truthy
  and the `openai` package imported;
* `chatRaw text`: what `openai.ChatCompletion.create(...)` returns for the
  diary text — the raw message content string, or an exception;
* `parseAnalysis raw`: `json.loads(raw)` followed by
  `data.get("moods", []) / data.get("topics", [])` — `some` when the raw
  string decodes to the two-list shape, `none` when decoding fails (the
  `json.JSONDecodeError` branch). -/
structure RemoteEnv where
  apiKeyConfigured : Bool
  chatRaw : String → Except String String
  parseAnalysis : String → Option AnalysisResult

/-- `_call_openai_analysis` of `journal/utils.py`: raise when OpenAI is not
configured; otherwise issue the chat request, strip the content and decode
it, re-raising a `JSONDecodeError` as `RuntimeError("Invalid JSON from
OpenAI")`. -/
def _call_openai_analysis (env : RemoteEnv) (text : String) :
    Except String AnalysisResult :=
  if !env.apiKeyConfigured then .error "OpenAI not configured"
  else
    match env.chatRaw text with
    | .error e => .error e
    | .ok raw =>
      match env.parseAnalysis (pyStrip raw) with
      | some r => .ok r
      | none => .error "Invalid JSON from OpenAI"

/-- The module-level dict `_analyses_cache` of `journal/utils.py`, as an
association list: assignment prepends, lookup takes the most recent
binding (observationally Python-dict `get`/`put`). -/
abbrev AnalysesCache := List (String × AnalysisResult)

/-- Python `text in _analyses_cache` / `_analyses_cache[text]` read. -/
def cacheGet : AnalysesCache → String → Option AnalysisResult
  | [], _ => none
  | (k, v) :: c, text => if k = text then some v else cacheGet c text

/-- Python `_analyses_cache[text] = result` write. -/
def cachePut (c : AnalysesCache) (text : String) (r : AnalysisResult) :
    AnalysesCache :=
  (text, r) :: c

/-- One `_analyse` invocation: the returned pair, the cache dict after the
call, and whether the body reached the `_call_openai_analysis` call (false
exactly on a cache hit). -/
structure AnalyseStep where
  result : AnalysisResult
  cache : AnalysesCache
  remoteInvoked : Bool
deriving Repr

/-- `_analyse` of `journal/utils.py`: return a cached pair when present;
otherwise try the remote analysis, fall back to `_keyword_fallback` on any
exception, store the pair in `_analyses_cache[text]` and return it.  The
cache is threaded explicitly (the Python original mutates a module-level
dict). -/
def _analyse (env : RemoteEnv) (cache : AnalysesCache) (text : String) :
    AnalyseStep :=
  match cacheGet cache text with
  | some r => ⟨r, cache, false⟩
  | none =>
    let r :=
      match _call_openai_analysis env text with
      | .ok r => r
      | .error _ => _keyword_fallback text
    ⟨r, cachePut cache text r, true⟩

/-- `extract_moods` of `journal/utils.py` (result component). -/
def extract_moods (env : RemoteEnv) (cache : AnalysesCache)
    (text : String) : List MoodEntry :=
  (_analyse env cache text).result.1

/-- `extract_topics` of `journal/utils.py` (result component). -/
def extract_topics (env : RemoteEnv) (cache : AnalysesCache)
    (text : String) : List TopicEntry :=
  (_analyse env cache text).result.2

/-- Behaviour of the external pieces `polish_text` touches:
`completionRaw prompt` is what `openai.Completion.create(...)` returns —
the raw completion text, or an exception. -/
structure PolishEnv where
  apiKeyConfigured : Bool
  completionRaw : String → Except String String

/-- The rewrite prompt `polish_text` builds around the trimmed input. -/
def polishPrompt (text : String) : String :=
  "Please rewrite the following raw speech-to-text diary entry into a clear, " ++
  "well-structured first-person journal paragraph. Avoid changing the meaning " ++
  "but improve grammar and flow.\n\n" ++ pyStrip text ++ "\n\nPolished Entry:"

/-- `polish_text` of `journal/utils.py`: with no OpenAI key (or no `openai`
package) return the trimmed input; otherwise issue the completion request
and return its stripped text.  An exception raised by the request
propagates — there is no `try/except` in this function. -/
def polish_text (env : PolishEnv) (text : String) : Except String String :=
  if !env.apiKeyConfigured then .ok (pyStrip text)
  else
    match env.completionRaw (polishPrompt text) with
    | .error e => .error e
    | .ok out => .ok (pyStrip out)

/-- The dummy transcript `transcribe_audio` substitutes when the `whisper`
package is not importable (the string quotes the word whisper
between ASCII apostrophes, built via `Char.ofNat 39`). -/
def placeholderTranscript : String :=
  "(Transcription unavailable – install the " ++ (Char.ofNat 39).toString ++
  "whisper" ++ (Char.ofNat 39).toString ++ " package)"

/-- `transcribe_audio` of `journal/utils.py`: when the `whisper` package is
not installed, log a warning and return the placeholder transcript;
otherwise run the model and return the stripped `text` field
(`whisperModel path` stands for `whisper.load_model("base").transcribe(path)`,
which may raise). -/
def transcribe_audio (whisperInstalled : Bool)
    (whisperModel : String → Except String String) (path : String) :
    Except String String :=
  if !whisperInstalled then .ok placeholderTranscript
  else
    match whisperModel path with
    | .error e => .error e
    | .ok text => .ok (pyStrip text)

/-- A remote environment in which every analysis request raises (the
service is unreachable). -/
def failingRemoteEnv : RemoteEnv :=
  ⟨true, fun _ => .error "service unreachable", fun _ => none⟩

/-- A remote environment in which the analysis request succeeds but the
response is prose around the JSON object, so decoding fails. -/
def malformedRemoteEnv : RemoteEnv :=
  ⟨true, fun _ => .ok "Sure! Here is the JSON you asked for.", fun _ => none⟩

/-- A remote environment in which every analysis request succeeds with an
empty pair. -/
def okRemoteEnv : RemoteEnv :=
  ⟨true, fun _ => .ok "{}", fun _ => some ([], [])⟩

/-- A remote environment whose (successful) response carries a confidence
of 2, outside `[0,1]` — the code forwards it without validation. -/
def rogueRemoteEnv : RemoteEnv :=
  ⟨true, fun _ => .ok "{}", fun _ => some ([⟨"happy", 2⟩], [])⟩

/-- A polish environment in which the completion request raises. -/
def failingPolishEnv : PolishEnv :=
  ⟨true, fun _ => .error "polish service down"⟩

/-- `rowScore` is exactly the Python true division `count / len`. -/
theorem rowScore_eq_div (kws : List String) (lower : String) :
    rowScore kws lower =
      (countMatches kws lower : ℚ) / (kws.length : ℚ) := by
  rw [rowScore, Rat.mkRat_eq_div]
  push_cast
  rfl

/-- `round2` in textbook form: the floor of `100q + 1/2`, divided by 100. -/
theorem round2_eq (q : ℚ) :
    round2 q = ((⌊q * 100 + 1 / 2⌋ : ℤ) : ℚ) / 100 := by
  have hd0 : ((q.den : ℚ)) ≠ 0 := Nat.cast_ne_zero.mpr q.den_nz
  have hq : (q.num : ℚ) = q * (q.den : ℚ) :=
    (div_eq_iff hd0).mp (Rat.num_div_den q)
  have hfd : (200 * q.num + (q.den : ℤ)).fdiv (2 * (q.den : ℤ))
      = (200 * q.num + (q.den : ℤ)) / (2 * (q.den : ℤ)) :=
    Int.fdiv_eq_ediv _ (by positivity)
  have hx : q * 100 + 1 / 2
      = ((200 * q.num + (q.den : ℤ) : ℤ) : ℚ) / ((2 * q.den : ℕ) : ℚ) := by
    rw [eq_div_iff (by positivity : ((2 * q.den : ℕ) : ℚ) ≠ 0)]
    push_cast
    rw [hq]
    ring
  have hcast : (2 * (q.den : ℤ)) = ((2 * q.den : ℕ) : ℤ) := by push_cast; ring
  rw [round2, Rat.mkRat_eq_div, hfd, hcast, hx,
    Rat.floor_intCast_div_natCast]
  norm_num

/-- `round2` never goes below 0 on nonnegative input. -/
theorem round2_nonneg {q : ℚ} (h : 0 ≤ q) : 0 ≤ round2 q := by
  rw [round2_eq]
  have hfl : (0 : ℤ) ≤ ⌊q * 100 + 1 / 2⌋ :=
    Int.floor_nonneg.mpr (by linarith)
  positivity

/-- `round2` never exceeds 1 on input at most 1. -/
theorem round2_le_one {q : ℚ} (h : q ≤ 1) : round2 q ≤ 1 := by
  rw [round2_eq, div_le_one (by norm_num : (0:ℚ) < 100)]
  have h1 : q * 100 + 1 / 2 ≤ 100 + 1 / 2 := by linarith
  have h2 : ⌊q * 100 + 1 / 2⌋ ≤ ⌊(100 + 1 / 2 : ℚ)⌋ := Int.floor_le_floor h1
  have h3 : ⌊(100 + 1 / 2 : ℚ)⌋ = 100 := by
    rw [Int.floor_eq_iff]
    norm_num
  exact_mod_cast h3 ▸ h2

/-- Row scores are nonnegative. -/
theorem rowScore_nonneg (kws : List String) (lower : String) :
    0 ≤ rowScore kws lower := by
  rw [rowScore_eq_div]
  positivity

/-- Row scores never exceed 1: at most `len(kws)` of the keywords match. -/
theorem rowScore_le_one (kws : List String) (lower : String) :
    rowScore kws lower ≤ 1 := by
  rw [rowScore_eq_div]
  rcases Nat.eq_zero_or_pos kws.length with h0 | hpos
  · simp [countMatches, h0, List.length_eq_zero.mp h0]
  · rw [div_le_one (by exact_mod_cast hpos)]
    exact_mod_cast List.length_filter_le _ kws

/-- A row contributes iff its score is non-zero iff some keyword matches
(the keyword list being non-empty). -/
theorem rowScore_ne_zero_iff {kws : List String} (hk : kws.length ≠ 0)
    (lower : String) :
    rowScore kws lower ≠ 0 ↔ ∃ kw ∈ kws, strContains lower kw = true := by
  rw [rowScore, Rat.mkRat_ne_zero hk]
  simp only [ne_eq, Int.natCast_eq_zero, countMatches,
    List.length_eq_zero, List.filter_eq_nil_iff]
  push_neg
  constructor
  · intro h
    obtain ⟨kw, hmem, hkw⟩ := h
    exact ⟨kw, hmem, hkw⟩
  · intro ⟨kw, hmem, hkw⟩
    exact ⟨kw, hmem, hkw⟩

/-- The names surviving a `fallbackScores` pass are a sublist of the table
keys. -/
theorem fallbackScores_fst_sublist (table : List (String × List String))
    (lower : String) :
    ((fallbackScores table lower).map Prod.fst).Sublist
      (table.map Prod.fst) := by
  induction table with
  | nil => simp [fallbackScores]
  | cons p t ih =>
    rw [fallbackScores]
    by_cases h : rowScore p.2 lower = 0
    · rw [if_pos h, List.map_cons]
      exact ih.trans (List.sublist_cons_self _ _)
    · rw [if_neg h, List.map_cons, List.map_cons]
      exact List.Sublist.cons₂ _ ih

/-- Membership in a `fallbackScores` pass, for a table with distinct keys:
the row for `name` survives with value `q` exactly when its score is
non-zero and `q` is the rounded score. -/
theorem fallbackScores_mem {table : List (String × List String)}
    {lower name : String} {kws : List String}
    (hnd : (table.map Prod.fst).Nodup) (hmem : (name, kws) ∈ table)
    (q : ℚ) :
    (name, q) ∈ fallbackScores table lower ↔
      (rowScore kws lower ≠ 0 ∧ q = round2 (rowScore kws lower)) := by
  induction table with
  | nil => cases hmem
  | cons p t ih =>
    rw [List.map_cons, List.nodup_cons] at hnd
    rw [fallbackScores]
    rcases List.mem_cons.mp hmem with hp | ht
    · have hp1 : p.1 = name := by rw [← hp]
      have hp2 : p.2 = kws := by rw [← hp]
      have hnotin : ∀ q', (name, q') ∉ fallbackScores t lower := by
        intro q' hq'
        have hnm : name ∈ (fallbackScores t lower).map Prod.fst :=
          List.mem_map_of_mem Prod.fst hq'
        exact (hp1 ▸ hnd.1) ((fallbackScores_fst_sublist t lower).subset hnm)
      rw [hp1, hp2]
      by_cases h : rowScore kws lower = 0
      · rw [if_pos h]
        constructor
        · intro hin
          exact absurd hin (hnotin q)
        · intro ⟨hne, _⟩
          exact absurd h hne
      · rw [if_neg h, List.mem_cons]
        constructor
        · intro hin
          rcases hin with heq | hin
          · exact ⟨h, ((Prod.ext_iff).mp heq).2⟩
          · exact absurd hin (hnotin q)
        · intro ⟨_, hq⟩
          exact Or.inl (by rw [hq])
    · have hpn : p.1 ≠ name := by
        intro hcontra
        exact hnd.1 (hcontra ▸ List.mem_map_of_mem Prod.fst ht)
      have hiff := ih hnd.2 ht
      by_cases h : rowScore p.2 lower = 0
      · rw [if_pos h]
        exact hiff
      · rw [if_neg h, List.mem_cons, ← hiff]
        constructor
        · intro hin
          rcases hin with heq | hin
          · exact absurd ((Prod.ext_iff).mp heq).1.symm hpn
          · exact hin
        · exact Or.inr

/-- Every surviving pair of a `fallbackScores` pass is the rounded score
of some table row. -/
theorem fallbackScores_mem_exists {table : List (String × List String)}
    {lower : String} {pr : String × ℚ}
    (hmem : pr ∈ fallbackScores table lower) :
    ∃ kws, (pr.1, kws) ∈ table ∧ pr.2 = round2 (rowScore kws lower) := by
  induction table with
  | nil => cases hmem
  | cons p t ih =>
    rw [fallbackScores] at hmem
    by_cases h : rowScore p.2 lower = 0
    · rw [if_pos h] at hmem
      obtain ⟨kws, hk, hr⟩ := ih hmem
      exact ⟨kws, List.mem_cons_of_mem _ hk, hr⟩
    · rw [if_neg h] at hmem
      rcases List.mem_cons.mp hmem with heq | hin
      · refine ⟨p.2, ?_, ?_⟩
        · have h1 : pr.1 = p.1 := by rw [heq]
          rw [h1]
          exact List.mem_cons_self _ _
        · rw [heq]
      · obtain ⟨kws, hk, hr⟩ := ih hin
        exact ⟨kws, List.mem_cons_of_mem _ hk, hr⟩

/-- The mood-table keys are pairwise distinct. -/
theorem mood_table_keys_nodup : (_FALLBACK_MOODS.map Prod.fst).Nodup := by
  decide

/-- The topic-table keys are pairwise distinct. -/
theorem topic_table_keys_nodup : (_FALLBACK_TOPICS.map Prod.fst).Nodup := by
  decide

/-- No mood-table row has an empty keyword list. -/
theorem mood_table_rows_nonempty : ∀ p ∈ _FALLBACK_MOODS, p.2.length ≠ 0 := by
  decide

/-- No topic-table row has an empty keyword list. -/
theorem topic_table_rows_nonempty : ∀ p ∈ _FALLBACK_TOPICS, p.2.length ≠ 0 := by
  decide

/-- Packing score pairs into `MoodEntry`s preserves membership. -/
theorem moodEntry_mem_map_iff (l : List (String × ℚ)) (n : String) (q : ℚ) :
    (MoodEntry.mk n q ∈ l.map (fun p => MoodEntry.mk p.1 p.2)) ↔ (n, q) ∈ l := by
  constructor
  · intro h
    obtain ⟨p, hp, he⟩ := List.mem_map.mp h
    injection he with h1 h2
    rw [← h1, ← h2]
    simpa using hp
  · intro h
    exact List.mem_map.mpr ⟨(n, q), h, rfl⟩

/-- Packing score pairs into `TopicEntry`s preserves membership. -/
theorem topicEntry_mem_map_iff (l : List (String × ℚ)) (n : String) (q : ℚ) :
    (TopicEntry.mk n q ∈ l.map (fun p => TopicEntry.mk p.1 p.2)) ↔ (n, q) ∈ l := by
  constructor
  · intro h
    obtain ⟨p, hp, he⟩ := List.mem_map.mp h
    injection he with h1 h2
    rw [← h1, ← h2]
    simpa using hp
  · intro h
    exact List.mem_map.mpr ⟨(n, q), h, rfl⟩

/-- A table in which no keyword occurs contributes nothing. -/
theorem fallbackScores_eq_nil {table : List (String × List String)}
    {lower : String}
    (h : ∀ p ∈ table, ∀ kw ∈ p.2, strContains lower kw = false) :
    fallbackScores table lower = [] := by
  induction table with
  | nil => rfl
  | cons p t ih =>
    rw [fallbackScores]
    have hc : countMatches p.2 lower = 0 := by
      rw [countMatches, List.length_eq_zero, List.filter_eq_nil_iff]
      intro kw hkw
      simp [h p (List.mem_cons_self p t) kw hkw]
    have hz : rowScore p.2 lower = 0 := by
      rw [rowScore, hc]
      simp
    rw [if_pos hz]
    exact ih (fun p' hp' => h p' (List.mem_cons_of_mem _ hp'))

/-- C1 counterexample: with the remote analyzer unreachable and an empty
cache, `_analyse` on "mad" does return the heuristic result, but it also
writes that heuristic result into the cache under key "mad" — the cache
state is NOT unchanged, contrary to the claim. -/
theorem analyse_failure_populates_cache_counterexample :
    (_analyse failingRemoteEnv [] "mad").result = _keyword_fallback "mad" ∧
    (_analyse failingRemoteEnv [] "mad").cache ≠ [] ∧
    cacheGet (_analyse failingRemoteEnv [] "mad").cache "mad" =
      some (_keyword_fallback "mad") := by
  decide

/-- C1 (amended): for every text T, if the remote analysis call fails, the
analysis step returns the result of the heuristic analyzer for T without error,
and the cache IS populated for key T — with the heuristic result, since
`_analyse` caches unconditionally. -/
theorem analyse_failure_returns_fallback_and_caches (env : RemoteEnv)
    (cache : AnalysesCache) (text e : String)
    (hfail : _call_openai_analysis env text = .error e)
    (hmiss : cacheGet cache text = none) :
    (_analyse env cache text).result = _keyword_fallback text ∧
    cacheGet (_analyse env cache text).cache text =
      some (_keyword_fallback text) := by
  simp [_analyse, hmiss, hfail, cachePut, cacheGet]

/-- C1 witness: the amended statement at the unreachable-service
environment, empty cache and text "mad". -/
theorem analyse_failure_returns_fallback_and_caches_witness :
    (_analyse failingRemoteEnv [] "mad").result = _keyword_fallback "mad" ∧
    cacheGet (_analyse failingRemoteEnv [] "mad").cache "mad" =
      some (_keyword_fallback "mad") :=
  analyse_failure_returns_fallback_and_caches failingRemoteEnv [] "mad"
    "service unreachable" rfl rfl

/-- C2 counterexample: on "I am so happy about my new job" the heuristic
topic list of the analyzer is empty — in particular it holds no "work" entry,
because none of the topic keywords (work/office/project/meeting) occurs in
the text ("job" is not among them). -/
theorem keywordFallback_happy_job_no_work_topic :
    ¬ ∃ e ∈ (_keyword_fallback "I am so happy about my new job").2,
        e.name = "work" ∧ 0 < e.relevance := by
  decide

/-- C2 (amended): on "I am so happy about my new job" the heuristic
analyzer yields a mood entry named "happy" with positive score, but its
topics list is empty (no topic keyword matches). -/
theorem keywordFallback_happy_job_amended :
    (∃ e ∈ (_keyword_fallback "I am so happy about my new job").1,
        e.name = "happy" ∧ 0 < e.confidence) ∧
    (_keyword_fallback "I am so happy about my new job").2 = [] := by
  decide

/-- C3 counterexample: on "mad" the angry row matches one of its three
keywords, yet the reported confidence is 0.33, not the exact quotient
1/3 — `_keyword_fallback` rounds scores to two decimal places. -/
theorem keywordFallback_round_counterexample :
    countMatches ["angry", "mad", "furious"] (pyLower "mad") = 1 ∧
    ∃ e ∈ (_keyword_fallback "mad").1,
      e.name = "angry" ∧ e.confidence ≠ (1 : ℚ) / 3 := by
  refine ⟨by decide, ⟨"angry", mkRat 33 100⟩, by decide, rfl, ?_⟩
  rw [Rat.mkRat_eq_div]
  norm_num

/-- C3 (amended): for every text and every row of the mood table, a mood
entry named by that row appears in the heuristic output iff at least one
keyword of the row occurs in the lower-cased text, and the reported
score is the matching-keyword count divided by the keyword-set size,
rounded to the nearest hundredth; the same holds for the topic table. -/
theorem keywordFallback_characterization (text name : String)
    (kws : List String) (q : ℚ) :
    ((name, kws) ∈ _FALLBACK_MOODS →
      (MoodEntry.mk name q ∈ (_keyword_fallback text).1 ↔
        ((∃ kw ∈ kws, strContains (pyLower text) kw = true) ∧
         q = round2 ((countMatches kws (pyLower text) : ℚ) /
                      (kws.length : ℚ))))) ∧
    ((name, kws) ∈ _FALLBACK_TOPICS →
      (TopicEntry.mk name q ∈ (_keyword_fallback text).2 ↔
        ((∃ kw ∈ kws, strContains (pyLower text) kw = true) ∧
         q = round2 ((countMatches kws (pyLower text) : ℚ) /
                      (kws.length : ℚ))))) := by
  constructor
  · intro hmem
    have hchain : MoodEntry.mk name q ∈ (_keyword_fallback text).1 ↔
        (name, q) ∈ fallbackScores _FALLBACK_MOODS (pyLower text) := by
      rw [_keyword_fallback]
      exact moodEntry_mem_map_iff _ _ _
    rw [hchain, fallbackScores_mem mood_table_keys_nodup hmem q,
      rowScore_ne_zero_iff (mood_table_rows_nonempty _ hmem) _,
      rowScore_eq_div]
  · intro hmem
    have hchain : TopicEntry.mk name q ∈ (_keyword_fallback text).2 ↔
        (name, q) ∈ fallbackScores _FALLBACK_TOPICS (pyLower text) := by
      rw [_keyword_fallback]
      exact topicEntry_mem_map_iff _ _ _
    rw [hchain, fallbackScores_mem topic_table_keys_nodup hmem q,
      rowScore_ne_zero_iff (topic_table_rows_nonempty _ hmem) _,
      rowScore_eq_div]

/-- C3 witness: instantiating the characterization on text "mad" and the
angry row: "mad" occurs among the keywords of the row, and the
confidence 33/100 of the present entry equals the rounded quotient. -/
theorem keywordFallback_characterization_witness :
    (∃ kw ∈ ["angry", "mad", "furious"],
        strContains (pyLower "mad") kw = true) ∧
    mkRat 33 100 = round2
      ((countMatches ["angry", "mad", "furious"] (pyLower "mad") : ℚ) /
        ((["angry", "mad", "furious"] : List String).length : ℚ)) :=
  ((keywordFallback_characterization "mad" "angry" ["angry", "mad", "furious"]
      (mkRat 33 100)).1 (by decide)).mp (by decide)

/-- C4 counterexample: when the configured remote polish call raises, the
exception propagates out of `polish_text` — the caller does NOT receive
the trimmed input (the journal route turns this into a 500 error). -/
theorem polish_failure_surfaces_counterexample :
    polish_text failingPolishEnv " hello world " = .error "polish service down" ∧
    polish_text failingPolishEnv " hello world " ≠
      .ok (pyStrip " hello world ") := by
  refine ⟨rfl, fun h => ?_⟩
  exact Except.noConfusion
    ((rfl : polish_text failingPolishEnv " hello world " =
        Except.error "polish service down").symm.trans h)

/-- C4 (amended): `polish_text` substitutes the trimmed input only when
the polish service is unavailable because OpenAI is not configured; an
exception raised by a configured remote call propagates to the caller
instead. -/
theorem polish_unconfigured_trims (env : PolishEnv) (text : String) :
    (env.apiKeyConfigured = false →
      polish_text env text = .ok (pyStrip text)) ∧
    (∀ e, env.apiKeyConfigured = true →
      env.completionRaw (polishPrompt text) = .error e →
      polish_text env text = .error e) := by
  constructor
  · intro h
    simp [polish_text, h]
  · intro e h hfail
    simp [polish_text, h, hfail]

/-- C4 witness: the trimmed passthrough in an unconfigured environment,
and the propagated exception in the failing configured one. -/
theorem polish_unconfigured_trims_witness :
    polish_text ⟨false, fun _ => .ok ""⟩ " hi " = .ok (pyStrip " hi ") ∧
    polish_text failingPolishEnv " hi " = .error "polish service down" :=
  ⟨(polish_unconfigured_trims ⟨false, fun _ => .ok ""⟩ " hi ").1 rfl,
   (polish_unconfigured_trims failingPolishEnv " hi ").2
     "polish service down" rfl rfl⟩

/-- C5: for every text, when the remote analyzer responds but its output
fails to decode as the expected JSON shape, `_analyse` returns the
result of the heuristic analyzer — the parse failure never escapes as an
exception (`_analyse` is total). -/
theorem analyse_malformed_falls_back (env : RemoteEnv)
    (cache : AnalysesCache) (text raw : String)
    (hconf : env.apiKeyConfigured = true)
    (hraw : env.chatRaw text = .ok raw)
    (hparse : env.parseAnalysis (pyStrip raw) = none)
    (hmiss : cacheGet cache text = none) :
    (_analyse env cache text).result = _keyword_fallback text := by
  simp [_analyse, hmiss, _call_openai_analysis, hconf, hraw, hparse]

/-- C5 witness: the fallback on a response of prose with no JSON object. -/
theorem analyse_malformed_falls_back_witness :
    (_analyse malformedRemoteEnv [] "mad").result = _keyword_fallback "mad" :=
  analyse_malformed_falls_back malformedRemoteEnv [] "mad"
    "Sure! Here is the JSON you asked for." rfl rfl rfl rfl

/-- C6: after an invocation of `_analyse` on text T that succeeded via the
remote analyzer, a second invocation with the same T never reaches the
remote call (the cache hit short-circuits) and returns the same result. -/
theorem analyse_second_call_hits_cache (env : RemoteEnv)
    (cache : AnalysesCache) (text : String) (r : AnalysisResult)
    (hok : _call_openai_analysis env text = .ok r)
    (hmiss : cacheGet cache text = none) :
    (_analyse env (_analyse env cache text).cache text).remoteInvoked
        = false ∧
    (_analyse env (_analyse env cache text).cache text).result =
      (_analyse env cache text).result := by
  simp [_analyse, hmiss, hok, cachePut, cacheGet]

/-- C6 witness: the short-circuit on a successful remote environment,
empty initial cache and text "hello". -/
theorem analyse_second_call_hits_cache_witness :
    (_analyse okRemoteEnv (_analyse okRemoteEnv [] "hello").cache
        "hello").remoteInvoked = false ∧
    (_analyse okRemoteEnv (_analyse okRemoteEnv [] "hello").cache
        "hello").result = (_analyse okRemoteEnv [] "hello").result :=
  analyse_second_call_hits_cache okRemoteEnv [] "hello" ([], []) rfl rfl

/-- C7: whenever the `whisper` package is not importable,
`transcribe_audio` returns the clearly-marked placeholder transcript as a
normal value instead of raising, so the pipeline can continue into
analysis and the caller receives a result. -/
theorem transcribe_unavailable_placeholder (whisperInstalled : Bool)
    (model : String → Except String String) (path : String)
    (h : whisperInstalled = false) :
    transcribe_audio whisperInstalled model path =
      .ok placeholderTranscript := by
  simp [transcribe_audio, h]

/-- C7 witness: the placeholder on a concrete path with no whisper. -/
theorem transcribe_unavailable_placeholder_witness :
    transcribe_audio false (fun _ => .error "no model") "entry.wav" =
      .ok placeholderTranscript :=
  transcribe_unavailable_placeholder false (fun _ => .error "no model")
    "entry.wav" rfl

/-- C8: storing a result in the analysis cache under key T and then
looking up T returns exactly that result (put/get round-trip). -/
theorem cache_put_get_roundtrip (c : AnalysesCache) (text : String)
    (r : AnalysisResult) :
    cacheGet (cachePut c text r) text = some r := by
  simp [cacheGet, cachePut]

/-- C9 counterexample: a successful remote response carrying a confidence
of 2 is forwarded by `_analyse` without range validation — the analysis
output of the analysis step is not confined to [0,1]. -/
theorem analyse_range_counterexample :
    ∃ e ∈ (_analyse rogueRemoteEnv [] "today").result.1,
      ¬ (0 ≤ e.confidence ∧ e.confidence ≤ 1) := by
  decide

/-- C9 (amended): every confidence and every relevance produced by the
heuristic analyzer lies in [0,1]; values parsed from a successful remote
response are passed through without range validation and need not. -/
theorem keywordFallback_scores_in_unit (text : String) :
    (∀ e ∈ (_keyword_fallback text).1,
      0 ≤ e.confidence ∧ e.confidence ≤ 1) ∧
    (∀ e ∈ (_keyword_fallback text).2,
      0 ≤ e.relevance ∧ e.relevance ≤ 1) := by
  constructor
  · intro e he
    rw [_keyword_fallback] at he
    obtain ⟨p, hp, hmk⟩ := List.mem_map.mp he
    obtain ⟨kws, _, hr⟩ := fallbackScores_mem_exists hp
    rw [← hmk]
    show 0 ≤ p.2 ∧ p.2 ≤ 1
    rw [hr]
    exact ⟨round2_nonneg (rowScore_nonneg kws (pyLower text)),
      round2_le_one (rowScore_le_one kws (pyLower text))⟩
  · intro e he
    rw [_keyword_fallback] at he
    obtain ⟨p, hp, hmk⟩ := List.mem_map.mp he
    obtain ⟨kws, _, hr⟩ := fallbackScores_mem_exists hp
    rw [← hmk]
    show 0 ≤ p.2 ∧ p.2 ≤ 1
    rw [hr]
    exact ⟨round2_nonneg (rowScore_nonneg kws (pyLower text)),
      round2_le_one (rowScore_le_one kws (pyLower text))⟩

/-- C9 witness: the heuristic entry produced on "mad" has its confidence
inside [0,1]. -/
theorem keywordFallback_scores_in_unit_witness :
    0 ≤ mkRat 33 100 ∧ (mkRat 33 100 : ℚ) ≤ 1 :=
  (keywordFallback_scores_in_unit "mad").1 ⟨"angry", mkRat 33 100⟩ (by decide)

/-- C10: for every input text the mood names of the heuristic analyzer come
only from {happy, sad, angry, anxious} and its topic names only from
{work, family, health}, each name at most once per list; and when no
trigger keyword of either table occurs in the lower-cased text it returns
two empty lists rather than failing. -/
theorem keywordFallback_names_invariant (text : String) :
    (∀ e ∈ (_keyword_fallback text).1,
      e.name ∈ ["happy", "sad", "angry", "anxious"]) ∧
    (∀ e ∈ (_keyword_fallback text).2,
      e.name ∈ ["work", "family", "health"]) ∧
    ((_keyword_fallback text).1.map MoodEntry.name).Nodup ∧
    ((_keyword_fallback text).2.map TopicEntry.name).Nodup ∧
    ((∀ p ∈ _FALLBACK_MOODS, ∀ kw ∈ p.2,
        strContains (pyLower text) kw = false) →
      (∀ p ∈ _FALLBACK_TOPICS, ∀ kw ∈ p.2,
        strContains (pyLower text) kw = false) →
      _keyword_fallback text = ([], [])) := by
  have hm : ((_keyword_fallback text).1.map MoodEntry.name).Sublist
      (_FALLBACK_MOODS.map Prod.fst) := by
    rw [_keyword_fallback]
    simp only [List.map_map]
    exact fallbackScores_fst_sublist _ _
  have ht : ((_keyword_fallback text).2.map TopicEntry.name).Sublist
      (_FALLBACK_TOPICS.map Prod.fst) := by
    rw [_keyword_fallback]
    simp only [List.map_map]
    exact fallbackScores_fst_sublist _ _
  refine ⟨?_, ?_, hm.nodup mood_table_keys_nodup,
    ht.nodup topic_table_keys_nodup, ?_⟩
  · intro e he
    exact hm.subset (List.mem_map_of_mem MoodEntry.name he)
  · intro e he
    exact ht.subset (List.mem_map_of_mem TopicEntry.name he)
  · intro hmo hto
    rw [_keyword_fallback, fallbackScores_eq_nil hmo,
      fallbackScores_eq_nil hto]
    rfl

/-- C10 witness: on "zzz" no keyword occurs, and the analyzer returns two
empty lists. -/
theorem keywordFallback_names_invariant_witness :
    _keyword_fallback "zzz" = ([], []) :=
  (keywordFallback_names_invariant "zzz").2.2.2.2 (by decide) (by decide)
